import Mathlib

/-!
Shallow embedding of the `get_daily_papers` crawler core: the paper data
model, the SQLite-backed storage layer (`DatabaseManager`), the fetch/retry
loop of `BaseCrawler.fetch_page`, and the manager's `crawl_conference`
pipeline, together with theorems settling the specification claims.
-/

namespace GetDailyPapers

/-- A paper record as produced by a parser and consumed by the storage layer:
a Python dict whose fields may each be `None` (`paper_data.get(...)` in
`DatabaseManager.insert_paper`). -/
structure PaperData where
  title : Option String
  authors : Option String
  conference : Option String
  year : Option Int
  abstract : Option String
  pdf_url : Option String
  paper_url : Option String
  doi : Option String
deriving DecidableEq

/-- A stored row of the `papers` table. `title`, `conference`, `year` are
NOT NULL columns; `downloaded` defaults to false, `local_path` to NULL;
timestamps are modelled as naturals. -/
structure PaperRow where
  id : Int
  title : String
  authors : Option String
  conference : String
  year : Int
  abstract : Option String
  pdf_url : Option String
  paper_url : Option String
  doi : Option String
  downloaded : Bool
  local_path : Option String
  created_at : Nat
  updated_at : Nat
deriving DecidableEq

/-- A row of the `crawl_history` audit table. -/
structure CrawlRow where
  conference : String
  year : Int
  papers_count : Nat
  status : String
  error_message : Option String
deriving DecidableEq

/-- The database state: the `papers` table (with its autoincrement counter)
and the append-only `crawl_history` table. -/
structure DB where
  papers : List PaperRow
  crawl_history : List CrawlRow
  next_id : Int
deriving DecidableEq

/-- The empty database, as produced by `DatabaseManager.init_database`. -/
def emptyDB : DB := ⟨[], [], 1⟩

/-- The natural key of a stored row: the UNIQUE(title, conference, year)
constraint of the `papers` table. -/
def rowKey (r : PaperRow) : String × String × Int :=
  (r.title, r.conference, r.year)

/-- The deduplication key used by `CrawlerManager._deduplicate_papers`:
`(paper["title"], paper["conference"], paper["year"])`. -/
def paperKey (p : PaperData) : Option String × Option String × Option Int :=
  (p.title, p.conference, p.year)

/-- The loop of `CrawlerManager._deduplicate_papers`, with the `seen` set made
an explicit accumulator: keep a record iff its key has not been seen. -/
def deduplicateAux (seen : List (Option String × Option String × Option Int)) :
    List PaperData → List PaperData
  | [] => []
  | p :: rest =>
    if paperKey p ∈ seen then deduplicateAux seen rest
    else p :: deduplicateAux (paperKey p :: seen) rest

/-- `CrawlerManager._deduplicate_papers`: single pass with an initially
empty `seen` set. -/
def deduplicate_papers (papers : List PaperData) : List PaperData :=
  deduplicateAux [] papers

/-- The collision-branch row update of `DatabaseManager.insert_paper`:
`DO UPDATE SET authors, abstract, pdf_url, paper_url, doi, updated_at` from
the excluded (incoming) values. -/
def updateRow (p : PaperData) (now : Nat) (r : PaperRow) : PaperRow :=
  { r with
    authors := p.authors
    abstract := p.abstract
    pdf_url := p.pdf_url
    paper_url := p.paper_url
    doi := p.doi
    updated_at := now }

/-- `DatabaseManager.insert_paper`: an INSERT .. ON CONFLICT(title,
conference, year) DO UPDATE. A NULL in any NOT NULL column (title,
conference, year) makes the statement fail; the exception is caught and
`False` returned with the store untouched. On conflict the mutable fields of
the colliding row are overwritten; otherwise a fresh row is appended with a
generated id, `downloaded = 0`, `local_path = NULL` and both timestamps set
by the current time. -/
def insert_paper (db : DB) (p : PaperData) (now : Nat) : Bool × DB :=
  match p.title, p.conference, p.year with
  | some t, some c, some y =>
    if db.papers.any (fun r => rowKey r = (t, c, y)) then
      (true,
        { db with
          papers := db.papers.map (fun r =>
            if rowKey r = (t, c, y) then updateRow p now r else r) })
    else
      (true,
        { db with
          papers := db.papers ++
            [⟨db.next_id, t, p.authors, c, y, p.abstract, p.pdf_url,
              p.paper_url, p.doi, false, none, now, now⟩]
          next_id := db.next_id + 1 })
  | _, _, _ => (false, db)

/-- `DatabaseManager.insert_papers_batch`: insert each record in turn,
counting the successes. -/
def insert_papers_batch (db : DB) (papers : List PaperData) (now : Nat) :
    Nat × DB :=
  papers.foldl
    (fun acc p =>
      let r := insert_paper acc.2 p now
      (if r.1 then acc.1 + 1 else acc.1, r.2))
    (0, db)

/-- `DatabaseManager.log_crawl_history`: append one row to the
`crawl_history` table. -/
def log_crawl_history (db : DB) (conference : String) (year : Int)
    (papers_count : Nat) (status : String) (error_message : Option String) :
    DB :=
  { db with
    crawl_history := db.crawl_history ++
      [⟨conference, year, papers_count, status, error_message⟩] }

/-- Newest-first ordering on stored rows (`ORDER BY created_at DESC`). -/
def newestFirst (a b : PaperRow) : Prop :=
  b.created_at ≤ a.created_at

instance : DecidableRel newestFirst := fun _ _ => Nat.decLe _ _

instance : IsTotal PaperRow newestFirst :=
  ⟨fun _ _ => Nat.le_total _ _⟩

instance : IsTrans PaperRow newestFirst :=
  ⟨fun _ _ _ h1 h2 => Nat.le_trans h2 h1⟩

/-- `DatabaseManager.get_papers`: dynamic WHERE clause. Python's
`if conference:` and `if year:` treat `None`, the empty string and `0` as
absent filters; the rows are then ordered newest first, and `if limit:`
adds a LIMIT clause only for a truthy limit (a negative SQLite LIMIT means
no limit). -/
def get_papers (db : DB) (conference : Option String) (year : Option Int)
    (limit : Option Int) : List PaperRow :=
  let rows := db.papers
  let rows :=
    match conference with
    | some c => if c = "" then rows else rows.filter (fun r => r.conference = c)
    | none => rows
  let rows :=
    match year with
    | some y => if y = 0 then rows else rows.filter (fun r => r.year = y)
    | none => rows
  let rows := List.insertionSort newestFirst rows
  match limit with
  | some n => if n = 0 then rows else if n < 0 then rows else rows.take n.toNat
  | none => rows

/-- The result shape of `DatabaseManager.get_statistics`. -/
structure Statistics where
  total_papers : Nat
  by_conference : List (String × Nat)
  last_update : Option Nat
deriving DecidableEq

/-- `DatabaseManager.get_statistics`: `COUNT(*)`, a GROUP BY conference
count, and `MAX(created_at)` (NULL on an empty table). -/
def get_statistics (db : DB) : Statistics :=
  { total_papers := db.papers.length
    by_conference :=
      ((db.papers.map (fun r => r.conference)).dedup).map
        (fun c => (c, (db.papers.filter (fun r => r.conference = c)).length))
    last_update := (db.papers.map (fun r => r.created_at)).max? }

/-- Pairwise distinctness of natural keys: the invariant the
UNIQUE(title, conference, year) constraint maintains on the `papers` table. -/
def keysUnique (l : List PaperRow) : Prop :=
  l.Pairwise (fun a b => rowKey a ≠ rowKey b)

/-- Concrete instantiation data for the storage theorems. -/
def rowX : PaperRow :=
  ⟨1, "X", some "A", "CCS", 2023, none, none, none, none, false, none, 10, 10⟩

/-- A record colliding with `rowX` on (title, conference, year). -/
def paperX : PaperData :=
  ⟨some "X", some "B", some "CCS", some 2023, some "abs", none, none, none⟩

/-- A one-row database holding `rowX`. -/
def dbX : DB := ⟨[rowX], [], 2⟩

/-- A second concrete record, with a key distinct from `paperX`. -/
def paperY : PaperData :=
  ⟨some "Y", none, some "NDSS", some 2024, none, none, none, none⟩

/-- Counterexample to C3 as stated: for the record `nullTitlePaper` (whose
title is NULL) the second upsert in a row returns failure, not success. -/
def nullTitlePaper : PaperData :=
  ⟨none, some "A", some "CCS", some 2023, none, none, none, none⟩

/-- The observable outcome of `BaseCrawler.fetch_page`: the returned body (or
the propagated request error), the chronological sequence of `time.sleep`
durations, and the number of GET attempts made. -/
structure FetchResult where
  result : Except String String
  sleeps : List Nat
  attempts : Nat

/-- The body of `for attempt in range(retry_times)` in
`BaseCrawler.fetch_page`, iterated over the list of remaining attempt
indices. A successful GET sleeps the politeness delay and returns the body;
a failed GET backs off `2 ^ attempt` seconds and retries unless it was the
last allowed attempt, in which case the error propagates. When the loop
exhausts with no iterations (`retry_times = 0`) the trailing `return ""`
fires. -/
def fetchLoop (transport : Nat → Except String String)
    (retry_times delay : Nat) : List Nat → FetchResult
  | [] => ⟨.ok "", [], 0⟩
  | i :: rest =>
    match transport i with
    | .ok body => ⟨.ok body, [delay], 1⟩
    | .error e =>
      if i < retry_times - 1 then
        let r := fetchLoop transport retry_times delay rest
        ⟨r.result, 2 ^ i :: r.sleeps, r.attempts + 1⟩
      else ⟨.error e, [], 1⟩

/-- `BaseCrawler.fetch_page` over an abstract transport: the transport maps
each 0-based attempt index to the outcome of that GET (including
`raise_for_status`). -/
def fetch_page (transport : Nat → Except String String)
    (retry_times delay : Nat) : FetchResult :=
  fetchLoop transport retry_times delay (List.range retry_times)

/-- A transport that fails on attempts 0 and 1 and succeeds on attempt 2. -/
def flakyTransport : Nat → Except String String
  | 0 => .error "timeout-0"
  | 1 => .error "timeout-1"
  | _ => .ok "BODY"

/-- A transport that fails on every attempt. -/
def deadTransport (i : Nat) : Except String String :=
  .error ("timeout-" ++ toString i)

/-- The concrete crawler instances the manager registers in
`CrawlerManager.__init__`: a DBLP crawler per conference plus the
conference-specific crawlers. -/
inductive CrawlerKind where
  | dblp (conference : String)
  | ndssSite
  | usenixSite
  | spSite
deriving DecidableEq

/-- `self.crawlers.get(conference_name, [])`: the ordered crawler list the
manager registers per conference; unregistered names get the empty list. -/
def crawlersFor (conference : String) : List CrawlerKind :=
  if conference = "NDSS" then [.dblp "NDSS", .ndssSite]
  else if conference = "USENIX Security" then
    [.dblp "USENIX Security", .usenixSite]
  else if conference = "CCS" then [.dblp "CCS"]
  else if conference = "S&P" then [.dblp "S&P", .spSite]
  else []

/-- The observable behaviour of one `crawler.crawl(year)` call during one
invocation: either the returned record list or a raised exception, together
with the number of page fetches the call performed. -/
structure CrawlOutcome where
  result : Except Unit (List PaperData)
  fetches : Nat

/-- The gathering loop of `CrawlerManager.crawl_conference`: run every
registered crawler, extend `all_papers` with each successful result, and
swallow (log-only) crawler exceptions. The second component counts the page
fetches performed. -/
def gather_papers (conference : String) (env : CrawlerKind → CrawlOutcome) :
    List PaperData × Nat :=
  (crawlersFor conference).foldl
    (fun acc k =>
      match (env k).result with
      | .ok ps => (acc.1 ++ ps, acc.2 + (env k).fetches)
      | .error _ => (acc.1, acc.2 + (env k).fetches))
    ([], 0)

/-- `CrawlerManager.crawl_conference`: gather from all registered crawlers,
deduplicate, and either batch-insert and log a crawl-history row with the
default `success` status and the saved count, or (when nothing was
deduplicated) log an `empty` row with count 0. The second component is the
total number of fetches performed. -/
def crawl_conference (db : DB) (conference : String) (year : Int)
    (env : CrawlerKind → CrawlOutcome) (now : Nat) : DB × Nat :=
  let g := gather_papers conference env
  let unique := deduplicate_papers g.1
  if unique.isEmpty then
    (log_crawl_history db conference year 0 "empty" none, g.2)
  else
    let b := insert_papers_batch db unique now
    (log_crawl_history b.2 conference year b.1 "success" none, g.2)

/-- A crawler environment for the C1 witness: the CCS DBLP crawler returns a
single record after one fetch. -/
def envCCS : CrawlerKind → CrawlOutcome :=
  fun _ => ⟨.ok [paperX], 1⟩

lemma deduplicateAux_cons_mem (seen) (p : PaperData) (rest : List PaperData)
    (h : paperKey p ∈ seen) :
    deduplicateAux seen (p :: rest) = deduplicateAux seen rest := by
  rw [deduplicateAux, if_pos h]

lemma deduplicateAux_cons_notMem (seen) (p : PaperData) (rest : List PaperData)
    (h : paperKey p ∉ seen) :
    deduplicateAux seen (p :: rest) =
      p :: deduplicateAux (paperKey p :: seen) rest := by
  rw [deduplicateAux, if_neg h]

lemma deduplicateAux_sublist (seen) (ps : List PaperData) :
    List.Sublist (deduplicateAux seen ps) ps := by
  induction ps generalizing seen with
  | nil => exact List.Sublist.refl _
  | cons p rest ih =>
    by_cases h : paperKey p ∈ seen
    · rw [deduplicateAux_cons_mem seen p rest h]
      exact List.Sublist.cons p (ih seen)
    · rw [deduplicateAux_cons_notMem seen p rest h]
      exact List.Sublist.cons₂ p (ih (paperKey p :: seen))

lemma deduplicateAux_keys_fresh (seen) (ps : List PaperData) :
    ∀ q ∈ deduplicateAux seen ps, paperKey q ∉ seen := by
  induction ps generalizing seen with
  | nil => simp [deduplicateAux]
  | cons p rest ih =>
    by_cases h : paperKey p ∈ seen
    · rw [deduplicateAux_cons_mem seen p rest h]
      exact ih seen
    · rw [deduplicateAux_cons_notMem seen p rest h]
      intro q hq
      rcases List.mem_cons.mp hq with rfl | hq'
      · exact h
      · intro hs
        exact ih (paperKey p :: seen) q hq' (List.mem_cons_of_mem _ hs)

lemma deduplicateAux_keys_nodup (seen) (ps : List PaperData) :
    ((deduplicateAux seen ps).map paperKey).Nodup := by
  induction ps generalizing seen with
  | nil => simp [deduplicateAux]
  | cons p rest ih =>
    by_cases h : paperKey p ∈ seen
    · rw [deduplicateAux_cons_mem seen p rest h]
      exact ih seen
    · rw [deduplicateAux_cons_notMem seen p rest h, List.map_cons,
        List.nodup_cons]
      refine ⟨?_, ih (paperKey p :: seen)⟩
      intro hmem
      rcases List.mem_map.mp hmem with ⟨q, hq, hkq⟩
      exact deduplicateAux_keys_fresh _ _ q hq (by simp [hkq])

lemma deduplicateAux_covers (seen) (ps : List PaperData) :
    ∀ p ∈ ps, paperKey p ∈ seen ∨
      paperKey p ∈ (deduplicateAux seen ps).map paperKey := by
  induction ps generalizing seen with
  | nil => simp
  | cons p rest ih =>
    intro q hq
    by_cases h : paperKey p ∈ seen
    · rw [deduplicateAux_cons_mem seen p rest h]
      rcases List.mem_cons.mp hq with rfl | hq'
      · exact Or.inl h
      · exact ih seen q hq'
    · rw [deduplicateAux_cons_notMem seen p rest h, List.map_cons]
      rcases List.mem_cons.mp hq with rfl | hq'
      · exact Or.inr (List.mem_cons_self _ _)
      · rcases ih (paperKey p :: seen) q hq' with hin | hin
        · rcases List.mem_cons.mp hin with heq | hs
          · exact Or.inr (by simp [heq])
          · exact Or.inl hs
        · exact Or.inr (List.mem_cons_of_mem _ hin)

lemma deduplicateAux_first_occurrence (seen) (ps : List PaperData) :
    ∀ q ∈ deduplicateAux seen ps,
      ps.find? (fun p => paperKey p = paperKey q) = some q := by
  induction ps generalizing seen with
  | nil => simp [deduplicateAux]
  | cons p rest ih =>
    intro q hq
    by_cases h : paperKey p ∈ seen
    · rw [deduplicateAux_cons_mem seen p rest h] at hq
      have hfresh := deduplicateAux_keys_fresh seen rest q hq
      have hne : ¬ (paperKey p = paperKey q) := by
        intro heq; exact hfresh (heq ▸ h)
      simp [List.find?, hne, ih seen q hq]
    · rw [deduplicateAux_cons_notMem seen p rest h] at hq
      rcases List.mem_cons.mp hq with rfl | hq'
      · simp [List.find?]
      · have hfresh := deduplicateAux_keys_fresh (paperKey p :: seen) rest q hq'
        have hne : ¬ (paperKey p = paperKey q) := by
          intro heq
          exact hfresh (by simp [heq])
        simp [List.find?, hne, ih (paperKey p :: seen) q hq']

/-- C4: the deduplicator returns the subsequence of first occurrences of each
(title, conference, year) key, in input order: the output is a sublist of the
input (hence no longer than it), output keys are pairwise distinct, every
input record's key appears in the output, and every output record is the
first input record bearing its key. -/
theorem deduplicate_papers_spec (ps : List PaperData) :
    List.Sublist (deduplicate_papers ps) ps ∧
    (deduplicate_papers ps).length ≤ ps.length ∧
    ((deduplicate_papers ps).map paperKey).Nodup ∧
    (∀ p ∈ ps, paperKey p ∈ (deduplicate_papers ps).map paperKey) ∧
    (∀ q ∈ deduplicate_papers ps,
      ps.find? (fun p => paperKey p = paperKey q) = some q) := by
  refine ⟨deduplicateAux_sublist [] ps,
    (deduplicateAux_sublist [] ps).length_le,
    deduplicateAux_keys_nodup [] ps, ?_, ?_⟩
  · intro p hp
    rcases deduplicateAux_covers [] ps p hp with h | h
    · simp at h
    · exact h
  · exact deduplicateAux_first_occurrence [] ps

lemma deduplicateAux_of_nodup (seen) (ps : List PaperData)
    (hdisj : ∀ q ∈ ps, paperKey q ∉ seen) (hnd : (ps.map paperKey).Nodup) :
    deduplicateAux seen ps = ps := by
  induction ps generalizing seen with
  | nil => simp [deduplicateAux]
  | cons p rest ih =>
    have hp : paperKey p ∉ seen := hdisj p (List.mem_cons_self _ _)
    simp only [List.map_cons, List.nodup_cons] at hnd
    rw [deduplicateAux_cons_notMem seen p rest hp]
    congr 1
    refine ih (paperKey p :: seen) ?_ hnd.2
    intro q hq hmem
    rcases List.mem_cons.mp hmem with heq | hs
    · exact hnd.1 (heq ▸ List.mem_map_of_mem paperKey hq)
    · exact hdisj q (List.mem_cons_of_mem _ hq) hs

/-- C5: the deduplicator is idempotent — applied to its own output it returns
that output unchanged. -/
theorem deduplicate_papers_idempotent (ps : List PaperData) :
    deduplicate_papers (deduplicate_papers ps) = deduplicate_papers ps := by
  unfold deduplicate_papers
  exact deduplicateAux_of_nodup [] _ (by simp) (deduplicateAux_keys_nodup [] ps)

lemma rowKey_updateRow (p : PaperData) (now : Nat) (r : PaperRow) :
    rowKey (updateRow p now r) = rowKey r := rfl

lemma keysUnique_mem_eq {l : List PaperRow} (hu : keysUnique l)
    {r s : PaperRow} (hr : r ∈ l) (hs : s ∈ l) (hk : rowKey r = rowKey s) :
    r = s := by
  induction l with
  | nil => cases hr
  | cons a tl ih =>
    rcases List.pairwise_cons.mp hu with ⟨ha, htl⟩
    rcases List.mem_cons.mp hr with rfl | hr'
    · rcases List.mem_cons.mp hs with rfl | hs'
      · rfl
      · exact absurd hk (ha s hs')
    · rcases List.mem_cons.mp hs with rfl | hs'
      · exact absurd hk.symm (ha r hr')
      · exact ih htl hr' hs'

lemma filter_key_nil {l : List PaperRow} {k : String × String × Int}
    (h : ∀ r ∈ l, rowKey r ≠ k) :
    l.filter (fun r => rowKey r = k) = [] := by
  induction l with
  | nil => rfl
  | cons a tl ih =>
    have ha : ¬ rowKey a = k := h a (List.mem_cons_self _ _)
    simp only [List.filter_cons, decide_eq_true_eq]
    rw [if_neg ha]
    exact ih (fun r hr => h r (List.mem_cons_of_mem _ hr))

lemma filter_key_singleton {l : List PaperRow} (hu : keysUnique l)
    {row : PaperRow} {k : String × String × Int}
    (hm : row ∈ l) (hk : rowKey row = k) :
    (l.filter (fun r => rowKey r = k)).length = 1 := by
  induction l with
  | nil => cases hm
  | cons a tl ih =>
    rcases List.pairwise_cons.mp hu with ⟨ha, htl⟩
    rcases List.mem_cons.mp hm with rfl | hm'
    · simp only [List.filter_cons, decide_eq_true_eq]
      rw [if_pos hk]
      have : tl.filter (fun r => rowKey r = k) = [] := by
        refine filter_key_nil ?_
        intro r hr heq
        exact ha r hr (hk.trans heq.symm)
      simp [this]
    · have ha' : ¬ rowKey a = k := by
        intro heq
        exact ha row hm' (heq.trans hk.symm)
      simp only [List.filter_cons, decide_eq_true_eq]
      rw [if_neg ha']
      exact ih htl hm'

lemma filter_key_map_update (l : List PaperRow) (p : PaperData) (now : Nat)
    (k : String × String × Int) :
    ((l.map (fun r => if rowKey r = k then updateRow p now r else r)).filter
        (fun r => rowKey r = k)).length =
      (l.filter (fun r => rowKey r = k)).length := by
  induction l with
  | nil => rfl
  | cons a tl ih =>
    by_cases h : rowKey a = k
    · simp only [List.map_cons, if_pos h, List.filter_cons, decide_eq_true_eq]
      have h2 : rowKey (updateRow p now a) = k :=
        (rowKey_updateRow p now a).trans h
      rw [if_pos h2]
      simp [ih]
    · simp only [List.map_cons, if_neg h, List.filter_cons, decide_eq_true_eq]
      exact ih

lemma insert_paper_conflict_papers (db : DB) (p : PaperData) (now : Nat)
    (t c : String) (y : Int)
    (ht : p.title = some t) (hc : p.conference = some c) (hy : p.year = some y)
    (hany : db.papers.any (fun r => rowKey r = (t, c, y)) = true) :
    (insert_paper db p now).1 = true ∧
    (insert_paper db p now).2.papers =
      db.papers.map (fun r =>
        if rowKey r = (t, c, y) then updateRow p now r else r) := by
  simp only [insert_paper, ht, hc, hy, hany]
  exact ⟨rfl, rfl⟩

/-- C2: upserting a record whose (title, conference, year) collides with a
stored row updates exactly the fields authors, abstract, pdf_url, paper_url,
doi and updated_at of that row, leaves its id, created_at, downloaded,
local_path (and key fields) unchanged, leaves every non-colliding row in
place, and afterwards exactly one row bears that key. -/
theorem insert_paper_collision_update (db : DB) (p : PaperData) (now : Nat)
    (t c : String) (y : Int) (row : PaperRow)
    (hu : keysUnique db.papers)
    (ht : p.title = some t) (hc : p.conference = some c) (hy : p.year = some y)
    (hm : row ∈ db.papers) (hk : rowKey row = (t, c, y)) :
    (((insert_paper db p now).2.papers.filter
        (fun r => rowKey r = (t, c, y))).length = 1) ∧
    updateRow p now row ∈ (insert_paper db p now).2.papers ∧
    (∀ r ∈ (insert_paper db p now).2.papers, rowKey r = (t, c, y) →
      r.id = row.id ∧ r.created_at = row.created_at ∧
      r.downloaded = row.downloaded ∧ r.local_path = row.local_path ∧
      r.title = row.title ∧ r.conference = row.conference ∧
      r.year = row.year ∧
      r.authors = p.authors ∧ r.abstract = p.abstract ∧
      r.pdf_url = p.pdf_url ∧ r.paper_url = p.paper_url ∧
      r.doi = p.doi ∧ r.updated_at = now) ∧
    (∀ r ∈ db.papers, rowKey r ≠ (t, c, y) →
      r ∈ (insert_paper db p now).2.papers) := by
  have hany : db.papers.any (fun r => rowKey r = (t, c, y)) = true :=
    List.any_eq_true.mpr ⟨row, hm, by simp [hk]⟩
  have hpap := (insert_paper_conflict_papers db p now t c y ht hc hy hany).2
  refine ⟨?_, ?_, ?_, ?_⟩
  · rw [hpap, filter_key_map_update]
    exact filter_key_singleton hu hm hk
  · rw [hpap]
    have := List.mem_map_of_mem
      (fun r => if rowKey r = (t, c, y) then updateRow p now r else r) hm
    simpa [hk] using this
  · intro r hr hkr
    rw [hpap] at hr
    rcases List.mem_map.mp hr with ⟨s, hs, hfs⟩
    by_cases hks : rowKey s = (t, c, y)
    · have hsrow : s = row := keysUnique_mem_eq hu hs hm (hks.trans hk.symm)
      subst hsrow
      rw [if_pos hks] at hfs
      subst hfs
      simp [updateRow]
    · rw [if_neg hks] at hfs
      subst hfs
      exact absurd hkr hks
  · intro r hr hkr
    rw [hpap]
    have := List.mem_map_of_mem
      (fun s => if rowKey s = (t, c, y) then updateRow p now s else s) hr
    simpa [if_neg hkr] using this

/-- Witness for C2: the collision-update theorem applied to the concrete
one-row store `dbX` and the colliding record `paperX`. -/
theorem insert_paper_collision_update_witness :
    (((insert_paper dbX paperX 11).2.papers.filter
        (fun r => rowKey r = ("X", "CCS", 2023))).length = 1) ∧
    updateRow paperX 11 rowX ∈ (insert_paper dbX paperX 11).2.papers := by
  have h := insert_paper_collision_update dbX paperX 11 "X" "CCS" 2023 rowX
    (by simp [keysUnique, dbX]) rfl rfl rfl (by simp [dbX]) rfl
  exact ⟨h.1, h.2.1⟩

lemma insert_paper_hasKey (db : DB) (p : PaperData) (now : Nat)
    (t c : String) (y : Int)
    (ht : p.title = some t) (hc : p.conference = some c)
    (hy : p.year = some y) :
    (insert_paper db p now).2.papers.any
      (fun r => rowKey r = (t, c, y)) = true := by
  by_cases hany : db.papers.any (fun r => rowKey r = (t, c, y)) = true
  · rw [(insert_paper_conflict_papers db p now t c y ht hc hy hany).2]
    rcases List.any_eq_true.mp hany with ⟨r, hr, hpr⟩
    have hk' : rowKey r = (t, c, y) := of_decide_eq_true hpr
    have hmem := List.mem_map_of_mem
      (fun s => if rowKey s = (t, c, y) then updateRow p now s else s) hr
    refine List.any_eq_true.mpr ⟨_, hmem, ?_⟩
    simp [hk', rowKey_updateRow]
  · simp only [insert_paper, ht, hc, hy, hany, Bool.false_eq_true,
      if_false]
    refine List.any_eq_true.mpr ⟨_, List.mem_append_right _ (List.mem_singleton.mpr rfl), ?_⟩
    simp [rowKey]

lemma insert_paper_update_length (db : DB) (p : PaperData) (now : Nat)
    (t c : String) (y : Int)
    (ht : p.title = some t) (hc : p.conference = some c) (hy : p.year = some y)
    (hany : db.papers.any (fun r => rowKey r = (t, c, y)) = true) :
    (insert_paper db p now).2.papers.length = db.papers.length := by
  rw [(insert_paper_conflict_papers db p now t c y ht hc hy hany).2]
  exact List.length_map _ _

/-- Witness for C4: the deduplicator on a concrete three-record list with one
duplicated key returns an order-preserving sublist of at most its length. -/
theorem deduplicate_papers_spec_witness :
    List.Sublist (deduplicate_papers [paperX, paperY, paperX])
      [paperX, paperY, paperX] ∧
    (deduplicate_papers [paperX, paperY, paperX]).length ≤
      ([paperX, paperY, paperX] : List PaperData).length :=
  ⟨(deduplicate_papers_spec [paperX, paperY, paperX]).1,
    (deduplicate_papers_spec [paperX, paperY, paperX]).2.1⟩


theorem insert_paper_twice_null_title_cex :
    (insert_paper (insert_paper emptyDB nullTitlePaper 0).2
      nullTitlePaper 1).1 = false := by
  rfl

/-- C3 (amended): for every record whose NOT NULL key columns (title,
conference, year) are all present, upserting it twice in succession leaves
`total_papers` unchanged between the first and the second call, and the
second (duplicate-key) upsert returns success rather than an error. -/
theorem insert_paper_idempotent_nonnull (db : DB) (p : PaperData)
    (n1 n2 : Nat) (t c : String) (y : Int)
    (ht : p.title = some t) (hc : p.conference = some c)
    (hy : p.year = some y) :
    (insert_paper (insert_paper db p n1).2 p n2).1 = true ∧
    (get_statistics (insert_paper (insert_paper db p n1).2 p n2).2).total_papers
      = (get_statistics (insert_paper db p n1).2).total_papers := by
  have hkey := insert_paper_hasKey db p n1 t c y ht hc hy
  constructor
  · exact (insert_paper_conflict_papers _ p n2 t c y ht hc hy hkey).1
  · show (insert_paper (insert_paper db p n1).2 p n2).2.papers.length
      = (insert_paper db p n1).2.papers.length
    exact insert_paper_update_length _ p n2 t c y ht hc hy hkey

/-- Witness for C3's amended theorem: upserting `paperX` twice into the
empty store keeps `total_papers` at 1 and the second call succeeds. -/
theorem insert_paper_idempotent_nonnull_witness :
    (insert_paper (insert_paper emptyDB paperX 0).2 paperX 1).1 = true ∧
    (get_statistics
      (insert_paper (insert_paper emptyDB paperX 0).2 paperX 1).2).total_papers
      = (get_statistics (insert_paper emptyDB paperX 0).2).total_papers :=
  insert_paper_idempotent_nonnull emptyDB paperX 0 1 "X" "CCS" 2023 rfl rfl rfl

/-- C10: upserting a record whose title is missing (NULL) fails the NOT NULL
constraint; the failure is caught inside the upsert, which returns `false`
to the caller and leaves the store unchanged. -/
theorem insert_paper_null_title (db : DB) (p : PaperData) (now : Nat)
    (h : p.title = none) : insert_paper db p now = (false, db) := by
  cases hpc : p.conference <;> cases hpy : p.year <;>
    simp [insert_paper, h, hpc, hpy]

/-- Witness for C10: the null-title record is rejected by the empty store,
which is left unchanged. -/
theorem insert_paper_null_title_witness :
    insert_paper emptyDB nullTitlePaper 5 = (false, emptyDB) :=
  insert_paper_null_title emptyDB nullTitlePaper 5 rfl

/-- C8: on an empty papers store, `get_statistics` reports zero total papers,
an empty per-conference count list, and no last-update timestamp. -/
theorem get_statistics_empty (db : DB) (h : db.papers = []) :
    get_statistics db = ⟨0, [], none⟩ := by
  simp [get_statistics, h]

/-- Witness for C8: the statistics of the freshly initialised database. -/
theorem get_statistics_empty_witness :
    get_statistics emptyDB = ⟨0, [], none⟩ :=
  get_statistics_empty emptyDB rfl

/-- C9: `get_papers` treats falsy filter values as absent: querying with
`year = 0` (resp. `conference = ""`) returns exactly what the query with that
filter omitted returns; and the unfiltered query returns all rows, ordered
newest-first by creation time. -/
theorem get_papers_falsy_filters (db : DB) (c : Option String)
    (y : Option Int) (l : Option Int) :
    get_papers db c (some 0) l = get_papers db c none l ∧
    get_papers db (some "") y l = get_papers db none y l ∧
    (get_papers db none none none).Perm db.papers ∧
    List.Sorted newestFirst (get_papers db none none none) := by
  refine ⟨by simp [get_papers], by simp [get_papers], ?_, ?_⟩
  · exact List.perm_insertionSort newestFirst db.papers
  · exact List.sorted_insertionSort newestFirst db.papers

/-- Witness for C9: on the concrete one-row store, the falsy filters
`year = 0` and `conference = ""` query exactly as the unfiltered call. -/
theorem get_papers_falsy_filters_witness :
    get_papers dbX none (some 0) none = get_papers dbX none none none ∧
    get_papers dbX (some "") none none = get_papers dbX none none none :=
  ⟨(get_papers_falsy_filters dbX none none none).1,
    (get_papers_falsy_filters dbX none none none).2.1⟩

lemma fetchLoop_all_fail (transport : Nat → Except String String)
    (rt delay : Nat) (err : Nat → String)
    (hf : ∀ i, i < rt → transport i = .error (err i)) :
    ∀ n a, a + n = rt → 1 ≤ n →
      fetchLoop transport rt delay (List.range' a n) =
        ⟨.error (err (rt - 1)), (List.range' a (n - 1)).map (fun i => 2 ^ i),
          n⟩ := by
  intro n
  induction n with
  | zero => intro a _ h1; cases h1
  | succ m ih =>
    intro a ha _
    rw [List.range'_succ]
    rcases Nat.eq_zero_or_pos m with rfl | hm
    · have haeq : a = rt - 1 := by omega
      rw [fetchLoop, hf a (by omega)]
      simp only [haeq, Nat.lt_irrefl, if_false]
      simp
    · have halt : a < rt - 1 := by omega
      rw [fetchLoop, hf a (by omega), ih (a + 1) (by omega) hm]
      have hrange : List.range' a m = a :: List.range' (a + 1) (m - 1) := by
        have h3 : m = (m - 1) + 1 := by omega
        conv_lhs => rw [h3]
        rw [List.range'_succ]
      simp [halt, hrange]

lemma fetchLoop_first_success (transport : Nat → Except String String)
    (rt delay k : Nat) (body : String) (err : Nat → String)
    (hk : k < rt) (hs : transport k = .ok body)
    (hf : ∀ i, i < k → transport i = .error (err i)) :
    ∀ n a, a + n = rt → a ≤ k →
      fetchLoop transport rt delay (List.range' a n) =
        ⟨.ok body, (List.range' a (k - a)).map (fun i => 2 ^ i) ++ [delay],
          k - a + 1⟩ := by
  intro n
  induction n with
  | zero => intro a ha hak; omega
  | succ m ih =>
    intro a ha hak
    rw [List.range'_succ]
    rcases Nat.eq_or_lt_of_le hak with rfl | halt
    · rw [fetchLoop, hs]
      simp
    · rw [fetchLoop, hf a halt, ih (a + 1) (by omega) (by omega)]
      have hlt : a < rt - 1 := by omega
      have hrange : List.range' a (k - a) =
          a :: List.range' (a + 1) (k - (a + 1)) := by
        have h3 : k - a = (k - (a + 1)) + 1 := by omega
        rw [h3, List.range'_succ]
      have hcount : k - (a + 1) + 1 + 1 = k - a + 1 := by omega
      simp [hlt, hrange, hcount]

/-- C6: the retry behaviour of `fetch_page`. If every attempt fails, the
final error propagates after exactly `retry_times` attempts, with backoff
sleeps of `2 ^ 0, …, 2 ^ (retry_times - 2)` seconds between consecutive
attempts. If attempt `k` (0-based, `k < retry_times`) is the first to
succeed, the body of that response is returned after `k + 1` attempts, the
backoffs `2 ^ 0, …, 2 ^ (k - 1)` having been slept between attempts and the
politeness delay immediately before returning. -/
theorem fetch_page_retry_spec (transport : Nat → Except String String)
    (retry_times delay k : Nat) (body : String) (err : Nat → String) :
    ((1 ≤ retry_times → (∀ i, i < retry_times → transport i = .error (err i)) →
      fetch_page transport retry_times delay =
        ⟨.error (err (retry_times - 1)),
          (List.range (retry_times - 1)).map (fun i => 2 ^ i),
          retry_times⟩)) ∧
    ((k < retry_times → transport k = .ok body →
      (∀ i, i < k → transport i = .error (err i)) →
      fetch_page transport retry_times delay =
        ⟨.ok body, (List.range k).map (fun i => 2 ^ i) ++ [delay],
          k + 1⟩)) := by
  constructor
  · intro h1 hf
    rw [fetch_page, List.range_eq_range']
    rw [fetchLoop_all_fail transport retry_times delay err hf retry_times 0
      (by omega) h1]
    rw [List.range_eq_range']
  · intro hk hs hf
    rw [fetch_page, List.range_eq_range']
    rw [fetchLoop_first_success transport retry_times delay k body err hk hs
      hf retry_times 0 (by omega) (by omega)]
    simp [List.range_eq_range']

lemma insert_paper_nonnull_true (db : DB) (p : PaperData) (now : Nat)
    (t c : String) (y : Int)
    (ht : p.title = some t) (hc : p.conference = some c)
    (hy : p.year = some y) :
    (insert_paper db p now).1 = true := by
  cases hb : db.papers.any (fun r => rowKey r = (t, c, y)) <;>
    simp [insert_paper, ht, hc, hy, hb]

lemma insert_paper_crawl_history_eq (db : DB) (p : PaperData) (now : Nat) :
    (insert_paper db p now).2.crawl_history = db.crawl_history := by
  unfold insert_paper
  split
  · split <;> rfl
  · rfl

lemma insertBatch_foldl_count (now : Nat) :
    ∀ (l : List PaperData),
      (∀ p ∈ l, p.title.isSome ∧ p.conference.isSome ∧ p.year.isSome) →
      ∀ acc : Nat × DB,
        (l.foldl (fun acc p =>
          let r := insert_paper acc.2 p now
          (if r.1 then acc.1 + 1 else acc.1, r.2)) acc).1 =
          acc.1 + l.length := by
  intro l
  induction l with
  | nil => intro _ acc; simp
  | cons p rest ih =>
    intro h acc
    rw [List.foldl_cons]
    have hp := h p (List.mem_cons_self _ _)
    obtain ⟨t, ht⟩ := Option.isSome_iff_exists.mp hp.1
    obtain ⟨c, hc⟩ := Option.isSome_iff_exists.mp hp.2.1
    obtain ⟨y, hy⟩ := Option.isSome_iff_exists.mp hp.2.2
    have htrue := insert_paper_nonnull_true acc.2 p now t c y ht hc hy
    rw [ih (fun q hq => h q (List.mem_cons_of_mem _ hq))]
    simp only [htrue, if_true, List.length_cons]
    omega

lemma insertBatch_foldl_history (now : Nat) :
    ∀ (l : List PaperData) (acc : Nat × DB),
      (l.foldl (fun acc p =>
        let r := insert_paper acc.2 p now
        (if r.1 then acc.1 + 1 else acc.1, r.2)) acc).2.crawl_history =
        acc.2.crawl_history := by
  intro l
  induction l with
  | nil => intro acc; rfl
  | cons p rest ih =>
    intro acc
    rw [List.foldl_cons, ih]
    exact insert_paper_crawl_history_eq acc.2 p now

lemma insert_papers_batch_count (db : DB) (papers : List PaperData)
    (now : Nat)
    (h : ∀ p ∈ papers, p.title.isSome ∧ p.conference.isSome ∧ p.year.isSome) :
    (insert_papers_batch db papers now).1 = papers.length := by
  have hfold := insertBatch_foldl_count now papers h (0, db)
  simpa [insert_papers_batch] using hfold

lemma insert_papers_batch_history (db : DB) (papers : List PaperData)
    (now : Nat) :
    (insert_papers_batch db papers now).2.crawl_history = db.crawl_history :=
  insertBatch_foldl_history now papers (0, db)

/-- Witness for C6 at the default configuration `retry_times = 3`,
`delay = 1`: the always-failing transport propagates the third error after
three attempts with backoffs 1 and 2 seconds, and the fail-twice transport
returns the successful third body after backoffs 1 and 2 and a final
politeness sleep. -/
theorem fetch_page_retry_spec_witness :
    fetch_page deadTransport 3 1 =
      ⟨.error "timeout-2", [1, 2], 3⟩ ∧
    fetch_page flakyTransport 3 1 =
      ⟨.ok "BODY", [1, 2, 1], 3⟩ := by
  constructor
  · have h := (fetch_page_retry_spec deadTransport 3 1 0 ""
      (fun i => "timeout-" ++ toString i)).1 (by omega)
      (fun i _ => rfl)
    rw [h]
    rfl
  · have h := (fetch_page_retry_spec flakyTransport 3 1 2 "BODY"
      (fun i => "timeout-" ++ toString i)).2 (by omega) rfl
      (fun i hi => by
        interval_cases i <;> rfl)
    rw [h]
    rfl

/-- C1: every invocation of `crawl_conference` appends exactly one row to
`crawl_history`, whose status is `success` exactly when its recorded
`papers_count` is positive and `empty` exactly when that count is zero. The
hypothesis — every gathered record carries a title, conference and year —
is guaranteed by all four registered parsers, which drop entries lacking a
title and stamp the conference name and year themselves. -/
theorem crawl_conference_logs_one_attempt (db : DB) (conference : String)
    (year : Int) (env : CrawlerKind → CrawlOutcome) (now : Nat)
    (hk : ∀ p ∈ (gather_papers conference env).1,
      p.title.isSome ∧ p.conference.isSome ∧ p.year.isSome) :
    ((crawl_conference db conference year env now).1.crawl_history.length =
      db.crawl_history.length + 1) ∧
    ((crawl_conference db conference year env now).1.crawl_history.take
      db.crawl_history.length = db.crawl_history) ∧
    (∀ r,
      (crawl_conference db conference year env now).1.crawl_history.getLast?
        = some r →
      r.conference = conference ∧ r.year = year ∧
      (r.status = "success" ↔ 0 < r.papers_count) ∧
      (r.status = "empty" ↔ r.papers_count = 0)) := by
  by_cases hemp :
      (deduplicate_papers (gather_papers conference env).1).isEmpty = true
  · have hcc : (crawl_conference db conference year env now).1 =
        log_crawl_history db conference year 0 "empty" none := by
      rw [crawl_conference]
      simp only [hemp, if_true]
    rw [hcc]
    unfold log_crawl_history
    refine ⟨by simp, by simp, ?_⟩
    intro r hr
    simp only [List.getLast?_concat, Option.some_inj] at hr
    subst hr
    refine ⟨rfl, rfl, ?_, ?_⟩ <;> simp
  · have hne : deduplicate_papers (gather_papers conference env).1 ≠ [] := by
      intro h0
      rw [h0] at hemp
      exact hemp rfl
    have hcount : (insert_papers_batch db
        (deduplicate_papers (gather_papers conference env).1) now).1 =
        (deduplicate_papers (gather_papers conference env).1).length := by
      refine insert_papers_batch_count db _ now ?_
      intro p hp
      exact hk p ((deduplicateAux_sublist [] _).mem hp)
    have hpos :
        0 < (deduplicate_papers (gather_papers conference env).1).length :=
      List.length_pos.mpr hne
    have hcc : (crawl_conference db conference year env now).1 =
        log_crawl_history (insert_papers_batch db
            (deduplicate_papers (gather_papers conference env).1) now).2
          conference year
          (insert_papers_batch db
            (deduplicate_papers (gather_papers conference env).1) now).1
          "success" none := by
      rw [crawl_conference]
      simp only [hemp, if_false, Bool.false_eq_true]
    rw [hcc]
    unfold log_crawl_history
    have hhist := insert_papers_batch_history db
      (deduplicate_papers (gather_papers conference env).1) now
    refine ⟨by simp [hhist], by simp [hhist], ?_⟩
    intro r hr
    simp only [List.getLast?_concat, Option.some_inj] at hr
    subst hr
    refine ⟨rfl, rfl, ?_, ?_⟩
    · simp only [hcount]
      constructor
      · intro _; exact hpos
      · intro _; trivial
    · simp only [hcount]
      constructor
      · intro habs; exact absurd habs (by decide)
      · intro habs; omega

/-- Witness for C1: crawling CCS with a parser yield of one well-formed
record appends exactly one history row, and it satisfies the status/count
correspondence. -/
theorem crawl_conference_logs_one_attempt_witness :
    ((crawl_conference emptyDB "CCS" 2023 envCCS 7).1.crawl_history.length =
      emptyDB.crawl_history.length + 1) ∧
    (∀ r,
      (crawl_conference emptyDB "CCS" 2023 envCCS 7).1.crawl_history.getLast?
        = some r →
      r.conference = "CCS" ∧ r.year = 2023 ∧
      (r.status = "success" ↔ 0 < r.papers_count) ∧
      (r.status = "empty" ↔ r.papers_count = 0)) := by
  have h := crawl_conference_logs_one_attempt emptyDB "CCS" 2023 envCCS 7
    (by decide)
  exact ⟨h.1, h.2.2⟩

/-- C7: crawling a conference with no registered crawlers performs no fetch,
leaves the papers store untouched, and records exactly one crawl-history row
with status `empty` and count 0. -/
theorem crawl_conference_unregistered (db : DB) (conference : String)
    (year : Int) (env : CrawlerKind → CrawlOutcome) (now : Nat)
    (h : crawlersFor conference = []) :
    (crawl_conference db conference year env now).2 = 0 ∧
    (crawl_conference db conference year env now).1.crawl_history =
      db.crawl_history ++ [⟨conference, year, 0, "empty", none⟩] ∧
    (crawl_conference db conference year env now).1.papers = db.papers := by
  have hg : gather_papers conference env = ([], 0) := by
    rw [gather_papers, h]
    rfl
  refine ⟨?_, ?_, ?_⟩ <;>
    simp [crawl_conference, hg, deduplicate_papers, deduplicateAux,
      log_crawl_history]

/-- Witness for C7: the conference name ICML is not registered; crawling it
against the empty database fetches nothing and logs one empty attempt. -/
theorem crawl_conference_unregistered_witness :
    (crawl_conference emptyDB "ICML" 2023 envCCS 7).2 = 0 ∧
    (crawl_conference emptyDB "ICML" 2023 envCCS 7).1.crawl_history =
      emptyDB.crawl_history ++ [⟨"ICML", 2023, 0, "empty", none⟩] ∧
    (crawl_conference emptyDB "ICML" 2023 envCCS 7).1.papers =
      emptyDB.papers :=
  crawl_conference_unregistered emptyDB "ICML" 2023 envCCS 7 (by decide)

end GetDailyPapers
